import Mathlib

/-!
Verification of the go-rest-api book service.

This file shallowly embeds the Go source of the repository:
* `internal/books` — the `Book` record, `MemoryRepository` (map from id
  string to `Book` plus a `nextID` counter) with `List` / `Get` / `Create` /
  `Update` / `Delete`, and `SeedData`.
* `cmd/server/main.go` — `readBookPayload`, `createBook`, `updateBook`,
  `contextDone`, `corsMiddleware`.

Go's `map[string]Book` is embedded as an association list whose observable
operations (`mapGet`, `mapPut`, `mapDel`) coincide with Go map
lookup / assignment / delete.  Go `int` arithmetic is idealized as `Int`
(overflow of the id counter is out of scope), and `strconv.Itoa` /
`strconv.Atoi` are embedded as `goItoa` / `goAtoi` over idealized integers.
`sort.Slice` with the strict comparator `result[i].ID < result[j].ID` is
embedded as an insertion sort with the same comparator: on entries with
pairwise distinct ids (map keys) every sort with this comparator produces
the same, uniquely determined ordering.  Concurrency is serialized: the
repository guards every operation with a readers-writer lock, so the
observable behaviour is that of the sequential operations embedded here.
-/

namespace GoRestApi

/-! ### Go string primitives -/

/-- A decimal ASCII digit, as in Go's `'0' <= c && c <= '9'`. -/
def isDigitCh (c : Char) : Bool := 48 ≤ c.toNat && c.toNat ≤ 57

/-- Unicode white space exactly as Go's `unicode.IsSpace`
(the White_Space property). -/
def goIsSpace (c : Char) : Bool :=
  c.toNat = 9 || c.toNat = 10 || c.toNat = 11 || c.toNat = 12 || c.toNat = 13 ||
  c.toNat = 32 || c.toNat = 133 || c.toNat = 160 || c.toNat = 5760 ||
  (8192 ≤ c.toNat && c.toNat ≤ 8202) || c.toNat = 8232 || c.toNat = 8233 ||
  c.toNat = 8239 || c.toNat = 8287 || c.toNat = 12288

/-- Go `strings.TrimSpace`: drop leading and trailing white space. -/
def goTrimSpace (s : String) : String :=
  String.mk (((s.data.dropWhile goIsSpace).reverse.dropWhile goIsSpace).reverse)

/-- Go `strings.HasPrefix s pre`: the first `pre.length` characters of `s`
are exactly `pre`. -/
def goHasPre (s pre : String) : Bool := s.take pre.length = pre

/-- Bytewise-lexicographic comparison on code points.  For valid UTF-8
strings this coincides with Go's bytewise `<` on strings, because UTF-8
byte order agrees with code-point order. -/
def strLtAux : List Char → List Char → Bool
  | [], [] => false
  | [], _ :: _ => true
  | _ :: _, [] => false
  | a :: as, b :: bs =>
    if a.toNat < b.toNat then true
    else if b.toNat < a.toNat then false
    else strLtAux as bs

/-- Go string `<` (used by `sort.Slice` in `MemoryRepository.List`). -/
def goStrLt (a b : String) : Bool := strLtAux a.data b.data

/-! ### `strconv.Itoa` and `strconv.Atoi` on idealized integers -/

/-- Value of a list of decimal digit characters, most significant first. -/
def digitsToNat (cs : List Char) : Nat :=
  cs.foldl (fun a c => a * 10 + (c.toNat - 48)) 0

/-- Decimal digits of `n`, most significant first (fuel-driven so that it
computes by reduction; `natToDigits` supplies enough fuel). -/
def natToDigitsAux : Nat → Nat → List Char
  | 0, _ => []
  | fuel + 1, n =>
    if n = 0 then [] else
      natToDigitsAux fuel (n / 10) ++ [Char.ofNat (48 + n % 10)]

/-- Decimal digits of `n`, most significant first; empty for `0`. -/
def natToDigits (n : Nat) : List Char := natToDigitsAux n n

/-- Go `strconv.Itoa` (idealized: no 64-bit overflow). -/
def goItoa (n : Int) : String :=
  if n < 0 then String.mk ('-' :: natToDigits (-n).toNat)
  else if n = 0 then "0"
  else String.mk (natToDigits n.toNat)

/-- The character-level grammar of Go `strconv.Atoi`: an optional sign
followed by one or more ASCII digits, nothing else. -/
def goAtoiAux : List Char → Option Int
  | [] => none
  | c :: cs =>
    if c = '+' then
      if cs ≠ [] ∧ cs.all isDigitCh = true then some (digitsToNat cs : Int)
      else none
    else if c = '-' then
      if cs ≠ [] ∧ cs.all isDigitCh = true then some (-(digitsToNat cs : Int))
      else none
    else
      if (c :: cs).all isDigitCh = true then some (digitsToNat (c :: cs) : Int)
      else none

/-- Go `strconv.Atoi` (idealized: the `int64` range error is not
modelled). -/
def goAtoi (s : String) : Option Int := goAtoiAux s.data

/-! ### The Book entity and the map embedding -/

/-- `books.Book` (struct `Book` in `internal/books/book.go`). -/
structure Book where
  ID : String
  title : String
  author : String
  isbn : String
  publishedYear : Int
deriving DecidableEq, Repr

/-- The embedding of Go's `map[string]Book`: an association list. -/
abbrev StoreMap := List (String × Book)

/-- Map lookup `m[k]` (the `ok` of Go's comma-ok idiom is `Option.isSome`). -/
def mapGet : StoreMap → String → Option Book
  | [], _ => none
  | e :: es, k => if e.1 = k then some e.2 else mapGet es k

/-- Map assignment `m[k] = v`: replace the binding of `k` if present,
add one otherwise. -/
def mapPut : StoreMap → String → Book → StoreMap
  | [], k, v => [(k, v)]
  | e :: es, k, v => if e.1 = k then (k, v) :: es else e :: mapPut es k v

/-- Go `delete(m, k)`: remove the binding of `k`. -/
def mapDel : StoreMap → String → StoreMap
  | [], _ => []
  | e :: es, k => if e.1 = k then mapDel es k else e :: mapDel es k

/-! ### MemoryRepository -/

/-- The state of `books.MemoryRepository`: the `books` map and the
`nextID` counter.  The `sync.RWMutex` serializes every operation, so the
sequential functions below are the observable behaviour. -/
structure RepoState where
  books : StoreMap
  nextID : Int
deriving DecidableEq, Repr

/-- One iteration of the seeding loop in `NewMemoryRepository`:
`repo.books[book.ID] = book`, and if `strconv.Atoi(book.ID)` succeeds with
`id >= repo.nextID` then `repo.nextID = id + 1`. -/
def seedStep (s : RepoState) (b : Book) : RepoState :=
  let bs := mapPut s.books b.ID b
  match goAtoi b.ID with
  | some id => if s.nextID ≤ id then { books := bs, nextID := id + 1 }
               else { books := bs, nextID := s.nextID }
  | none => { books := bs, nextID := s.nextID }

/-- `books.NewMemoryRepository seed`: start from an empty map and
`nextID = 1`, then run the seeding loop. -/
def newMemoryRepository (seed : List Book) : RepoState :=
  seed.foldl seedStep { books := [], nextID := 1 }

/-- Insert a book into a list kept ascending under `goStrLt` on `ID`. -/
def insertSorted (b : Book) : List Book → List Book
  | [] => [b]
  | c :: cs => if goStrLt b.ID c.ID then b :: c :: cs else c :: insertSorted b cs

/-- The effect of `sort.Slice(result, func(i, j) { return result[i].ID <
result[j].ID })` on the map's values: the unique ordering of the entries
that is ascending under the raw Go string comparison on `ID`. -/
def sortBooks (l : List Book) : List Book := l.foldr insertSorted []

/-- `MemoryRepository.List`: all stored books, sorted with the comparator
`result[i].ID < result[j].ID` (raw string comparison).  The repository
never returns an error. -/
def listB (s : RepoState) : List Book := sortBooks (s.books.map (fun e => e.2))

/-- `MemoryRepository.Get`. -/
def getB (s : RepoState) (id : String) : Option Book := mapGet s.books id

/-- `MemoryRepository.Create`: overwrite the caller's id with
`strconv.Itoa(r.nextID)`, increment the counter, store, and return the
stored book. -/
def create (s : RepoState) (b : Book) : Book × RepoState :=
  let b2 := { b with ID := goItoa s.nextID }
  (b2, { books := mapPut s.books b2.ID b2, nextID := s.nextID + 1 })

/-- `MemoryRepository.Update`: if `id` is present, store the body with its
id overwritten by the path id and return it with `found = some`;
otherwise return `none` and leave the state untouched. -/
def update (s : RepoState) (id : String) (b : Book) : Option Book × RepoState :=
  match mapGet s.books id with
  | none => (none, s)
  | some _ =>
    let b2 := { b with ID := id }
    (some b2, { s with books := mapPut s.books id b2 })

/-- `MemoryRepository.Delete`: remove the binding if present and report
whether it existed. -/
def delete (s : RepoState) (id : String) : Bool × RepoState :=
  match mapGet s.books id with
  | none => (false, s)
  | some _ => (true, { s with books := mapDel s.books id })

/-- First entry of `books.SeedData()`. -/
def seedBook1 : Book :=
  { ID := "1", title := "The Go Programming Language",
    author := "Alan A. A. Donovan", isbn := "9780134190440", publishedYear := 2015 }

/-- Second entry of `books.SeedData()`. -/
def seedBook2 : Book :=
  { ID := "2", title := "Introducing Go",
    author := "Caleb Doxsey", isbn := "9781491941959", publishedYear := 2016 }

/-- Third entry of `books.SeedData()`. -/
def seedBook3 : Book :=
  { ID := "3", title := "Concurrency in Go",
    author := "Katherine Cox-Buday", isbn := "9781491941195", publishedYear := 2017 }

/-- Fourth entry of `books.SeedData()`. -/
def seedBook4 : Book :=
  { ID := "4", title := "Go in Practice",
    author := "Matt Butcher", isbn := "9781633430075", publishedYear := 2016 }

/-- `books.SeedData()`. -/
def seedData : List Book := [seedBook1, seedBook2, seedBook3, seedBook4]

/-! ### Mutating operations as a transition system -/

/-- A state-changing repository call (`Get`/`List` do not mutate). -/
inductive Op where
  | create (b : Book)
  | update (id : String) (b : Book)
  | delete (id : String)
deriving DecidableEq, Repr

/-- The state after one repository call. -/
def applyOp (s : RepoState) : Op → RepoState
  | .create b => (create s b).2
  | .update id b => (update s id b).2
  | .delete id => (delete s id).2

/-- The state after a sequence of repository calls. -/
def run (s : RepoState) : List Op → RepoState
  | [] => s
  | op :: ops => run (applyOp s op) ops

/-- The id-allocator invariant of the spec: `nextID` is strictly greater
than the integer value of every stored id that parses as an integer. -/
def Inv (s : RepoState) : Prop :=
  ∀ kb ∈ s.books, ∀ n : Int, goAtoi kb.1 = some n → n < s.nextID

/-! ### The HTTP handler layer (`cmd/server/main.go`)

The wire format is out of scope: a request is embedded by its method, its
`Content-Type` header, the decoded JSON body (`none` when
`json.Unmarshal` fails) and the state of its lifecycle token at the
`contextDone` check; a response is its status, headers, and an abstract
body (JSON serialisation is not modelled). -/

/-- What `ctx.Err()` can report at the response-time check:
`context.DeadlineExceeded`, `context.Canceled`, or any other non-nil
error from a custom context. -/
inductive CtxErr where
  | deadlineExceeded
  | canceled
  | other
deriving DecidableEq, Repr

/-- The abstract response body. -/
inductive RespBody where
  | empty
  | errorMsg (msg : String)
  | bookJson (b : Book)
  | booksJson (bs : List Book)
deriving DecidableEq, Repr

/-- An HTTP response as observed by the client. -/
structure Response where
  status : Nat
  headers : List (String × String)
  body : RespBody
deriving DecidableEq, Repr

/-- `writeError`: a JSON error body with the given status. -/
def writeError (status : Nat) (msg : String) : Response :=
  { status := status, headers := [("Content-Type", "application/json")],
    body := RespBody.errorMsg msg }

/-- `writeJSON(w, 200, book)`. -/
def okResponse (b : Book) : Response :=
  { status := 200, headers := [("Content-Type", "application/json")],
    body := RespBody.bookJson b }

/-- The `201 Created` response of `createBook`, with its `Location`
header. -/
def createdResponse (b : Book) : Response :=
  { status := 201,
    headers := [("Location", String.append "/api/books/" b.ID),
                ("Content-Type", "application/json")],
    body := RespBody.bookJson b }

/-- The error response `contextDone` writes for each kind of context
error: 504 for `DeadlineExceeded`, 408 for `Canceled` and for the default
branch. -/
def ctxErrResponse : CtxErr → Response
  | .deadlineExceeded => writeError 504 "request timed out"
  | .canceled => writeError 408 "request canceled"
  | .other => writeError 408 "request canceled"

/-- `contextDone(w, ctx)`: `none` means `ctx.Err() == nil`, so nothing
was written and the function returned `false`; `some r` means a non-nil
error was seen, the single response `r` was written and `true` was
returned. -/
def contextDone : Option CtxErr → Option Response
  | none => none
  | some e => some (ctxErrResponse e)

/-- The decoded create/update JSON body (`bookPayload`). -/
structure BookPayload where
  title : String
  author : String
  isbn : String
  publishedYear : Int
deriving DecidableEq, Repr

/-- An inbound request as the handlers see it.  `body = none` embeds a
payload on which `json.Unmarshal` fails; `ctxErr` is the state of the
request context at the `contextDone` check. -/
structure Request where
  method : String
  contentType : String
  body : Option BookPayload
  ctxErr : Option CtxErr
deriving DecidableEq, Repr

/-- The error cases of `readBookPayload`. -/
inductive PayloadError where
  | unsupportedMediaType
  | invalidJSON
  | invalidPayload
deriving DecidableEq, Repr

/-- `readBookPayload`: reject a non-`application/json` content type,
reject undecodable JSON, trim title/author/isbn, and reject a blank
title or author. -/
def readBookPayload (req : Request) : Except PayloadError BookPayload :=
  if goHasPre req.contentType "application/json" = false then
    Except.error PayloadError.unsupportedMediaType
  else
    match req.body with
    | none => Except.error PayloadError.invalidJSON
    | some p0 =>
      let p := { p0 with title := goTrimSpace p0.title,
                         author := goTrimSpace p0.author,
                         isbn := goTrimSpace p0.isbn }
      if p.title = "" ∨ p.author = "" then Except.error PayloadError.invalidPayload
      else Except.ok p

/-- `handlePayloadError`: the response for each payload failure. -/
def payloadErrorResponse : PayloadError → Response
  | .unsupportedMediaType => writeError 415 "content type must be application/json"
  | .invalidJSON => writeError 400 "invalid JSON payload"
  | .invalidPayload => writeError 400 "title and author are required"

/-- The `books.Book` built from a validated payload (`createBook` and
`updateBook` leave `ID` at its zero value). -/
def payloadBook (p : BookPayload) : Book :=
  { ID := "", title := p.title, author := p.author, isbn := p.isbn,
    publishedYear := p.publishedYear }

/-- `application.createBook`: validate the payload, `store.Create`, then
check the context and either write the lifecycle error or the 201 result. -/
def createBook (req : Request) (s : RepoState) : Response × RepoState :=
  match readBookPayload req with
  | .error e => (payloadErrorResponse e, s)
  | .ok p =>
    let cr := create s (payloadBook p)
    match contextDone req.ctxErr with
    | some r => (r, cr.2)
    | none => (createdResponse cr.1, cr.2)

/-- `application.updateBook`: validate the payload, `store.Update`, check
the context (before the found test, as in the source), then 404 or the
200 result. -/
def updateBook (req : Request) (id : String) (s : RepoState) : Response × RepoState :=
  match readBookPayload req with
  | .error e => (payloadErrorResponse e, s)
  | .ok p =>
    let ur := update s id (payloadBook p)
    match contextDone req.ctxErr with
    | some r => (r, ur.2)
    | none =>
      match ur.1 with
      | none => (writeError 404 "book not found", ur.2)
      | some u => (okResponse u, ur.2)

/-- The four headers `corsMiddleware` sets on every response. -/
def corsHeaders : List (String × String) :=
  [("Access-Control-Allow-Origin", "*"),
   ("Access-Control-Allow-Methods", "GET, POST, PUT, DELETE, OPTIONS"),
   ("Access-Control-Allow-Headers", "Content-Type"),
   ("Access-Control-Expose-Headers", "Location")]

/-- `corsMiddleware`: a downstream handler receives the headers already
set on the writer; the middleware adds the CORS headers, answers
preflight `OPTIONS` requests itself with `204 No Content`, and delegates
everything else. -/
def corsMiddleware (next : Request → List (String × String) → Response)
    (req : Request) (hdrs : List (String × String)) : Response :=
  let h := hdrs ++ corsHeaders
  if req.method = "OPTIONS" then { status := 204, headers := h, body := RespBody.empty }
  else next req h

/-! ### Decimal round-trip lemmas -/

lemma digitsToNat_append (ds : List Char) (c : Char) :
    digitsToNat (ds ++ [c]) = digitsToNat ds * 10 + (c.toNat - 48) := by
  simp [digitsToNat, List.foldl_append]

lemma digitCh_toNat {m : Nat} (hm : m < 10) : (Char.ofNat (48 + m)).toNat = 48 + m := by
  interval_cases m <;> decide

lemma digitCh_isDigit {m : Nat} (hm : m < 10) : isDigitCh (Char.ofNat (48 + m)) = true := by
  interval_cases m <;> decide

lemma natToDigitsAux_spec :
    ∀ fuel n : Nat, n ≤ fuel →
      (natToDigitsAux fuel n).all isDigitCh = true ∧
      digitsToNat (natToDigitsAux fuel n) = n ∧
      (0 < n → natToDigitsAux fuel n ≠ []) := by
  intro fuel
  induction fuel with
  | zero =>
    intro n hn
    have hn0 : n = 0 := Nat.le_zero.mp hn
    subst hn0
    exact ⟨rfl, rfl, fun h => absurd h (by omega)⟩
  | succ f ih =>
    intro n hn
    by_cases h0 : n = 0
    · subst h0
      exact ⟨rfl, rfl, fun h => absurd h (by omega)⟩
    · have hlt : n / 10 < n := Nat.div_lt_self (Nat.pos_of_ne_zero h0) (by norm_num)
      have hdiv : n / 10 ≤ f := by omega
      obtain ⟨hall, hval, _⟩ := ih (n / 10) hdiv
      have hm : n % 10 < 10 := Nat.mod_lt _ (by omega)
      refine ⟨?_, ?_, ?_⟩
      · simp [natToDigitsAux, h0, List.all_append, hall, digitCh_isDigit hm]
      · simp [natToDigitsAux, h0, digitsToNat_append, hval, digitCh_toNat hm]
        omega
      · intro _
        simp [natToDigitsAux, h0]

lemma natToDigits_spec (n : Nat) :
    (natToDigits n).all isDigitCh = true ∧
    digitsToNat (natToDigits n) = n ∧
    (0 < n → natToDigits n ≠ []) :=
  natToDigitsAux_spec n n (Nat.le_refl n)

lemma digit_ne_plus {c : Char} (h : isDigitCh c = true) : ¬ c = '+' := by
  rintro rfl; exact absurd h (by decide)

lemma digit_ne_minus {c : Char} (h : isDigitCh c = true) : ¬ c = '-' := by
  rintro rfl; exact absurd h (by decide)

lemma data_mk (l : List Char) : (String.mk l).data = l := rfl

lemma goAtoi_goItoa (n : Int) : goAtoi (goItoa n) = some n := by
  rcases lt_trichotomy n 0 with hneg | hzero | hpos
  · obtain ⟨hall, hval, hne⟩ := natToDigits_spec (-n).toNat
    have htn : ((-n).toNat : Int) = -n := Int.toNat_of_nonneg (by omega)
    have hp : 0 < (-n).toNat := by omega
    obtain ⟨d, ds, hds⟩ := List.exists_cons_of_ne_nil (hne hp)
    rw [hds] at hall hval
    rw [goItoa, if_pos hneg, goAtoi, data_mk, hds]
    show goAtoiAux ('-' :: d :: ds) = some n
    rw [goAtoiAux, if_neg (by decide), if_pos rfl,
      if_pos ⟨List.cons_ne_nil d ds, hall⟩, hval]
    congr 1
    omega
  · subst hzero; decide
  · obtain ⟨hall, hval, hne⟩ := natToDigits_spec n.toNat
    have htn : (n.toNat : Int) = n := Int.toNat_of_nonneg (by omega)
    have hp : 0 < n.toNat := by omega
    obtain ⟨d, ds, hds⟩ := List.exists_cons_of_ne_nil (hne hp)
    rw [hds] at hall hval
    have hd : isDigitCh d = true := by
      have := List.all_eq_true.mp hall d (List.mem_cons_self d ds)
      simpa using this
    rw [goItoa, if_neg (by omega), if_neg (by omega), goAtoi, data_mk, hds]
    show goAtoiAux (d :: ds) = some n
    rw [goAtoiAux, if_neg (digit_ne_plus hd), if_neg (digit_ne_minus hd),
      if_pos hall, hval, htn]

/-! ### Map lemmas -/

lemma mapGet_mapPut_self (m : StoreMap) (k : String) (v : Book) :
    mapGet (mapPut m k v) k = some v := by
  induction m with
  | nil => simp [mapPut, mapGet]
  | cons e es ih =>
    by_cases h : e.1 = k
    · simp [mapPut, h, mapGet]
    · simp [mapPut, h, mapGet, ih]

lemma mapGet_mapPut_ne (m : StoreMap) (k k2 : String) (v : Book) (h : ¬ k2 = k) :
    mapGet (mapPut m k v) k2 = mapGet m k2 := by
  have hkk : ¬ k = k2 := fun he => h he.symm
  induction m with
  | nil => simp [mapPut, mapGet, hkk]
  | cons e es ih =>
    by_cases hek : e.1 = k
    · simp [mapPut, hek, mapGet, hkk]
    · simp [mapPut, hek, mapGet, ih]

lemma mapGet_mapDel_self (m : StoreMap) (k : String) :
    mapGet (mapDel m k) k = none := by
  induction m with
  | nil => simp [mapDel, mapGet]
  | cons e es ih =>
    by_cases h : e.1 = k
    · simp [mapDel, h, ih]
    · simp [mapDel, h, mapGet, ih]

lemma mem_mapPut {m : StoreMap} {k : String} {v : Book} {e : String × Book}
    (h : e ∈ mapPut m k v) : e = (k, v) ∨ e ∈ m := by
  induction m with
  | nil =>
    simp [mapPut] at h
    exact Or.inl h
  | cons a as ih =>
    by_cases hak : a.1 = k
    · rw [mapPut, if_pos hak] at h
      rcases List.mem_cons.mp h with h1 | h1
      · exact Or.inl h1
      · exact Or.inr (List.mem_cons_of_mem _ h1)
    · rw [mapPut, if_neg hak] at h
      rcases List.mem_cons.mp h with h1 | h1
      · exact Or.inr (h1 ▸ List.mem_cons_self _ _)
      · rcases ih h1 with h2 | h2
        · exact Or.inl h2
        · exact Or.inr (List.mem_cons_of_mem _ h2)

lemma mem_mapDel {m : StoreMap} {k : String} {e : String × Book}
    (h : e ∈ mapDel m k) : e ∈ m := by
  induction m with
  | nil => simp [mapDel] at h
  | cons a as ih =>
    by_cases hak : a.1 = k
    · rw [mapDel, if_pos hak] at h
      exact List.mem_cons_of_mem _ (ih h)
    · rw [mapDel, if_neg hak] at h
      rcases List.mem_cons.mp h with h1 | h1
      · exact h1 ▸ List.mem_cons_self _ _
      · exact List.mem_cons_of_mem _ (ih h1)

lemma mapGet_some_mem {m : StoreMap} {k : String} {v : Book}
    (h : mapGet m k = some v) : (k, v) ∈ m := by
  induction m with
  | nil => simp [mapGet] at h
  | cons e es ih =>
    by_cases hek : e.1 = k
    · rw [mapGet, if_pos hek] at h
      have : e = (k, v) := by
        cases e
        simp_all
      exact this ▸ List.mem_cons_self _ _
    · rw [mapGet, if_neg hek] at h
      exact List.mem_cons_of_mem _ (ih h)

/-! ### The id-allocator invariant -/

lemma nextID_seedStep_le (s : RepoState) (b : Book) : s.nextID ≤ (seedStep s b).nextID := by
  simp only [seedStep]
  split
  · split
    · simp
      omega
    · simp
  · simp

lemma inv_seedStep {s : RepoState} (b : Book) (h : Inv s) : Inv (seedStep s b) := by
  simp only [seedStep]
  split
  case h_1 id heq =>
    split
    case isTrue hle =>
      intro kb hkb n hn
      rcases mem_mapPut hkb with rfl | hmem
      · rw [heq] at hn
        simp at hn ⊢
        omega
      · have := h kb hmem n hn
        simp
        omega
    case isFalse hle =>
      intro kb hkb n hn
      rcases mem_mapPut hkb with rfl | hmem
      · rw [heq] at hn
        simp at hn ⊢
        omega
      · exact h kb hmem n hn
  case h_2 heq =>
    intro kb hkb n hn
    rcases mem_mapPut hkb with rfl | hmem
    · rw [heq] at hn
      cases hn
    · exact h kb hmem n hn

lemma inv_newMemoryRepository (seed : List Book) : Inv (newMemoryRepository seed) := by
  have hfold : ∀ (l : List Book) (s : RepoState), Inv s → Inv (List.foldl seedStep s l) := by
    intro l
    induction l with
    | nil => intro s hs; exact hs
    | cons b bs ih => intro s hs; exact ih _ (inv_seedStep b hs)
  refine hfold seed _ ?_
  intro kb hkb n hn
  exact absurd hkb (List.not_mem_nil kb)

lemma nextID_applyOp_le (s : RepoState) (op : Op) : s.nextID ≤ (applyOp s op).nextID := by
  cases op with
  | create b =>
    simp only [applyOp, create]
    omega
  | update id b =>
    simp only [applyOp, update]
    split
    · exact le_refl _
    · exact le_refl _
  | delete id =>
    simp only [applyOp, delete]
    split
    · exact le_refl _
    · exact le_refl _

lemma inv_applyOp {s : RepoState} (op : Op) (h : Inv s) : Inv (applyOp s op) := by
  cases op with
  | create b =>
    simp only [applyOp, create]
    intro kb hkb n hn
    simp only at hkb ⊢
    rcases mem_mapPut hkb with rfl | hmem
    · simp only at hn
      rw [goAtoi_goItoa] at hn
      simp at hn
      omega
    · have := h kb hmem n hn
      omega
  | update id b =>
    simp only [applyOp, update]
    split
    · exact h
    case h_2 b0 heq =>
      intro kb hkb n hn
      rcases mem_mapPut hkb with rfl | hmem
      · exact h (id, b0) (mapGet_some_mem heq) n hn
      · exact h kb hmem n hn
  | delete id =>
    simp only [applyOp, delete]
    split
    · exact h
    · intro kb hkb n hn
      exact h kb (mem_mapDel hkb) n hn

lemma inv_run {s : RepoState} (ops : List Op) (h : Inv s) : Inv (run s ops) := by
  induction ops generalizing s with
  | nil => exact h
  | cons op rest ih => exact ih (inv_applyOp op h)

lemma nextID_le_run (s : RepoState) (ops : List Op) : s.nextID ≤ (run s ops).nextID := by
  induction ops generalizing s with
  | nil => exact le_refl _
  | cons op rest ih => exact le_trans (nextID_applyOp_le s op) (ih _)

lemma run_append (s : RepoState) (l1 l2 : List Op) :
    run s (l1 ++ l2) = run (run s l1) l2 := by
  induction l1 generalizing s with
  | nil => rfl
  | cons op rest ih =>
    rw [List.cons_append, run, run]
    exact ih _

lemma key_ne_fresh {t : RepoState} {N : Int} (h : Inv t) (hle : t.nextID ≤ N)
    {kb : String × Book} (hmem : kb ∈ t.books) : ¬ kb.1 = goItoa N := by
  intro he
  have hp : goAtoi kb.1 = some N := by rw [he]; exact goAtoi_goItoa N
  have := h kb hmem N hp
  omega

/-! ### The claims -/

/-- C1: the claim says `List` returns the books ordered by ascending
*numeric* value of the id, so that a store holding ids "2" and "10" lists
"2" before "10".  The code sorts with the raw Go string comparison
`result[i].ID < result[j].ID` instead: starting from the seeded store and
performing six Creates (ids "5" … "10"), `List` places "10" immediately
after "1" and before "2" — string order, not numeric order.  The spec
calls numeric ordering "a documented correctness requirement", so this is
a bug in the code. -/
theorem list_raw_string_order_bug :
    (listB (run (newMemoryRepository seedData)
        [Op.create { ID := "", title := "x", author := "y", isbn := "", publishedYear := 0 },
         Op.create { ID := "", title := "x", author := "y", isbn := "", publishedYear := 0 },
         Op.create { ID := "", title := "x", author := "y", isbn := "", publishedYear := 0 },
         Op.create { ID := "", title := "x", author := "y", isbn := "", publishedYear := 0 },
         Op.create { ID := "", title := "x", author := "y", isbn := "", publishedYear := 0 },
         Op.create { ID := "", title := "x", author := "y", isbn := "", publishedYear := 0 }])).map
      Book.ID = ["1", "10", "2", "3", "4", "5", "6", "7", "8", "9"] := by
  with_unfolding_all decide

/-- C3: the id-allocator invariant.  `newMemoryRepository` establishes
`Inv` (the next-id counter strictly dominates every stored id that parses
as an integer) and every reachable state satisfies it; a `create` at any
reachable state returns the decimal string of the current counter (so its
numeric value is exactly `nextID`), bumps the counter by one, and its id
differs from every key present at any earlier point of the trace —
including keys deleted in between (`ops = pre ++ suf`); finally the
counter after the create plus any further operations stays strictly above
the counter at create time, so ids of successive creates strictly
increase. -/
theorem id_allocator_invariant (seed : List Book) (ops pre suf more : List Op) (b : Book)
    (h : ops = pre ++ suf) :
    Inv (newMemoryRepository seed) ∧
    Inv (run (newMemoryRepository seed) ops) ∧
    goAtoi ((create (run (newMemoryRepository seed) ops) b).1.ID)
      = some (run (newMemoryRepository seed) ops).nextID ∧
    ((create (run (newMemoryRepository seed) ops) b).2).nextID
      = (run (newMemoryRepository seed) ops).nextID + 1 ∧
    (∀ kb ∈ (run (newMemoryRepository seed) pre).books,
        ¬ kb.1 = (create (run (newMemoryRepository seed) ops) b).1.ID) ∧
    (run (newMemoryRepository seed) ops).nextID
      < (run ((create (run (newMemoryRepository seed) ops) b).2) more).nextID := by
  have h0 : Inv (newMemoryRepository seed) := inv_newMemoryRepository seed
  have hops : Inv (run (newMemoryRepository seed) ops) := inv_run ops h0
  have hpre : Inv (run (newMemoryRepository seed) pre) := inv_run pre h0
  have hle : (run (newMemoryRepository seed) pre).nextID
      ≤ (run (newMemoryRepository seed) ops).nextID := by
    rw [h, run_append]
    exact nextID_le_run _ suf
  refine ⟨h0, hops, goAtoi_goItoa _, rfl, ?_, ?_⟩
  · intro kb hkb
    exact key_ne_fresh hpre hle hkb
  · have h1 : ((create (run (newMemoryRepository seed) ops) b).2).nextID
        = (run (newMemoryRepository seed) ops).nextID + 1 := rfl
    have h2 := nextID_le_run ((create (run (newMemoryRepository seed) ops) b).2) more
    omega

/-- Witness for C3: the concrete instance with an empty seed and empty
operation sequences. -/
theorem id_allocator_invariant_witness :
    Inv (newMemoryRepository []) ∧
    Inv (run (newMemoryRepository []) []) ∧
    goAtoi ((create (run (newMemoryRepository []) [])
        { ID := "", title := "t", author := "a", isbn := "", publishedYear := 0 }).1.ID)
      = some (run (newMemoryRepository []) []).nextID ∧
    ((create (run (newMemoryRepository []) [])
        { ID := "", title := "t", author := "a", isbn := "", publishedYear := 0 }).2).nextID
      = (run (newMemoryRepository []) []).nextID + 1 ∧
    (∀ kb ∈ (run (newMemoryRepository []) []).books,
        ¬ kb.1 = (create (run (newMemoryRepository []) [])
          { ID := "", title := "t", author := "a", isbn := "", publishedYear := 0 }).1.ID) ∧
    (run (newMemoryRepository []) []).nextID
      < (run ((create (run (newMemoryRepository []) [])
          { ID := "", title := "t", author := "a", isbn := "", publishedYear := 0 }).2) []).nextID :=
  id_allocator_invariant [] [] [] [] []
    { ID := "", title := "t", author := "a", isbn := "", publishedYear := 0 } rfl

/-- C4: the seeded scenario.  From the store seeded with `SeedData`
(ids "1" … "4"), a Create of any draft is assigned id "5"; deleting "2"
succeeds; a further Create of any draft is assigned id "6" (not "2");
and `List` then returns exactly the entries with ids
["1", "3", "4", "5", "6"], in that order. -/
theorem seeded_crud_scenario (b1 b2 : Book) :
    ((create (newMemoryRepository seedData) b1).1).ID = "5" ∧
    (delete ((create (newMemoryRepository seedData) b1).2) "2").1 = true ∧
    ((create ((delete ((create (newMemoryRepository seedData) b1).2) "2").2) b2).1).ID = "6" ∧
    listB ((create ((delete ((create (newMemoryRepository seedData) b1).2) "2").2) b2).2)
      = [seedBook1, seedBook3, seedBook4, { b1 with ID := "5" }, { b2 with ID := "6" }] ∧
    (listB ((create ((delete ((create (newMemoryRepository seedData) b1).2) "2").2) b2).2)).map
      Book.ID = ["1", "3", "4", "5", "6"] := by
  refine ⟨?_, ?_, ?_, ?_, ?_⟩ <;> with_unfolding_all rfl

/-- C5: `Create` ignores any caller-supplied id (the result does not
depend on `b.ID`), assigns `strconv.Itoa` of the current counter as the
new id, stores the book under that id, increments the counter, and
returns the stored book. -/
theorem create_assigns_next_id (s : RepoState) (b : Book) (x : String) :
    create s b = create s { b with ID := x } ∧
    (create s b).1 = { b with ID := goItoa s.nextID } ∧
    mapGet ((create s b).2).books (goItoa s.nextID) = some ((create s b).1) ∧
    ((create s b).2).nextID = s.nextID + 1 :=
  ⟨rfl, rfl, mapGet_mapPut_self s.books (goItoa s.nextID) { b with ID := goItoa s.nextID }, rfl⟩

/-- C6: when the id exists, `Update` stores the body with every field
replaced except the id (the path id wins over any id in the body) and
returns it with found = `some`; when the id is absent it returns `none`
and the state is returned completely unchanged; in both cases the
counter and every other entry are untouched. -/
theorem update_replaces_fields_except_id (s : RepoState) (id k : String) (b : Book)
    (hk : ¬ k = id) :
    ((update s id b).2).nextID = s.nextID ∧
    mapGet ((update s id b).2).books k = mapGet s.books k ∧
    (match mapGet s.books id with
     | some _ =>
       (update s id b).1 = some { b with ID := id } ∧
       mapGet ((update s id b).2).books id = some { b with ID := id }
     | none => update s id b = (none, s)) := by
  rcases hget : mapGet s.books id with _ | b0
  · simp [update, hget]
  · simp [update, hget, mapGet_mapPut_self, mapGet_mapPut_ne s.books id k _ hk]

/-- Witness for C6 at a concrete store, id and body. -/
theorem update_replaces_fields_except_id_witness :
    ((update ⟨[("1", seedBook1)], 2⟩ "1"
        { ID := "zz", title := "t", author := "a", isbn := "i", publishedYear := 1 }).2).nextID
      = (⟨[("1", seedBook1)], 2⟩ : RepoState).nextID ∧
    mapGet ((update ⟨[("1", seedBook1)], 2⟩ "1"
        { ID := "zz", title := "t", author := "a", isbn := "i", publishedYear := 1 }).2).books "9"
      = mapGet (⟨[("1", seedBook1)], 2⟩ : RepoState).books "9" ∧
    (match mapGet (⟨[("1", seedBook1)], 2⟩ : RepoState).books "1" with
     | some _ =>
       (update ⟨[("1", seedBook1)], 2⟩ "1"
          { ID := "zz", title := "t", author := "a", isbn := "i", publishedYear := 1 }).1
         = some { Book.mk "zz" "t" "a" "i" 1 with ID := "1" } ∧
       mapGet ((update ⟨[("1", seedBook1)], 2⟩ "1"
          { ID := "zz", title := "t", author := "a", isbn := "i", publishedYear := 1 }).2).books "1"
         = some { Book.mk "zz" "t" "a" "i" 1 with ID := "1" }
     | none =>
       update ⟨[("1", seedBook1)], 2⟩ "1"
          { ID := "zz", title := "t", author := "a", isbn := "i", publishedYear := 1 }
         = (none, ⟨[("1", seedBook1)], 2⟩)) :=
  update_replaces_fields_except_id ⟨[("1", seedBook1)], 2⟩ "1" "9"
    { ID := "zz", title := "t", author := "a", isbn := "i", publishedYear := 1 } (by decide)

/-- C7: `Delete` of an absent id returns found = false and leaves the
whole state (entries and counter) unchanged; for a present id the first
call returns true and removes the entry, and a second call on the
resulting state returns false and changes nothing. -/
theorem delete_idempotent (s : RepoState) (id : String) :
    ((delete s id).2).nextID = s.nextID ∧
    (match mapGet s.books id with
     | none => delete s id = (false, s)
     | some _ =>
       (delete s id).1 = true ∧
       mapGet ((delete s id).2).books id = none ∧
       delete ((delete s id).2) id = (false, (delete s id).2)) := by
  rcases hget : mapGet s.books id with _ | b0
  · simp [delete, hget]
  · simp [delete, hget, mapGet_mapDel_self]

/-- C2: when the request's lifecycle token already carries an error at
the response-time check, `createBook` and `updateBook` answer with the
lifecycle error response (504 for a deadline, 408 for cancellation —
never the computed result, whose body would be `bookJson`), even though
the repository write succeeded: the created entity is stored under the
freshly assigned id, and the updated entity is stored under the path id. -/
theorem lifecycle_error_after_persisted_write (req : Request) (s : RepoState) (e : CtxErr)
    (p : BookPayload) (id : String) (b0 : Book)
    (hctx : req.ctxErr = some e)
    (hp : readBookPayload req = Except.ok p)
    (hid : mapGet s.books id = some b0) :
    (createBook req s).1 = ctxErrResponse e ∧
    mapGet ((createBook req s).2).books (goItoa s.nextID)
      = some { payloadBook p with ID := goItoa s.nextID } ∧
    (updateBook req id s).1 = ctxErrResponse e ∧
    mapGet ((updateBook req id s).2).books id = some { payloadBook p with ID := id } := by
  have hcd : contextDone req.ctxErr = some (ctxErrResponse e) := by rw [hctx]; exact rfl
  refine ⟨?_, ?_, ?_, ?_⟩
  · rw [createBook.eq_def, hp, hcd]
  · rw [createBook.eq_def, hp, hcd]
    exact mapGet_mapPut_self s.books (goItoa s.nextID) _
  · rw [updateBook.eq_def, hp, hcd]
  · rw [updateBook.eq_def, hp, hcd]
    show mapGet ((update s id (payloadBook p)).2).books id
      = some { payloadBook p with ID := id }
    rw [update.eq_def, hid]
    exact mapGet_mapPut_self s.books id _

/-- Witness for C2: a canceled create/update of a valid draft against a
one-entry store. -/
theorem lifecycle_error_after_persisted_write_witness :
    (createBook
        { method := "POST", contentType := "application/json",
          body := some { title := "T", author := "A", isbn := "", publishedYear := 2020 },
          ctxErr := some CtxErr.canceled } ⟨[("1", seedBook1)], 2⟩).1
      = ctxErrResponse CtxErr.canceled ∧
    mapGet ((createBook
        { method := "POST", contentType := "application/json",
          body := some { title := "T", author := "A", isbn := "", publishedYear := 2020 },
          ctxErr := some CtxErr.canceled } ⟨[("1", seedBook1)], 2⟩).2).books
        (goItoa (⟨[("1", seedBook1)], 2⟩ : RepoState).nextID)
      = some { payloadBook { title := "T", author := "A", isbn := "", publishedYear := 2020 } with
          ID := goItoa (⟨[("1", seedBook1)], 2⟩ : RepoState).nextID } ∧
    (updateBook
        { method := "PUT", contentType := "application/json",
          body := some { title := "T", author := "A", isbn := "", publishedYear := 2020 },
          ctxErr := some CtxErr.canceled } "1" ⟨[("1", seedBook1)], 2⟩).1
      = ctxErrResponse CtxErr.canceled ∧
    mapGet ((updateBook
        { method := "PUT", contentType := "application/json",
          body := some { title := "T", author := "A", isbn := "", publishedYear := 2020 },
          ctxErr := some CtxErr.canceled } "1" ⟨[("1", seedBook1)], 2⟩).2).books "1"
      = some { payloadBook { title := "T", author := "A", isbn := "", publishedYear := 2020 } with
          ID := "1" } := by
  have h1 := lifecycle_error_after_persisted_write
    { method := "POST", contentType := "application/json",
      body := some { title := "T", author := "A", isbn := "", publishedYear := 2020 },
      ctxErr := some CtxErr.canceled }
    ⟨[("1", seedBook1)], 2⟩ CtxErr.canceled
    { title := "T", author := "A", isbn := "", publishedYear := 2020 } "1" seedBook1
    rfl (by with_unfolding_all rfl) (by decide)
  have h2 := lifecycle_error_after_persisted_write
    { method := "PUT", contentType := "application/json",
      body := some { title := "T", author := "A", isbn := "", publishedYear := 2020 },
      ctxErr := some CtxErr.canceled }
    ⟨[("1", seedBook1)], 2⟩ CtxErr.canceled
    { title := "T", author := "A", isbn := "", publishedYear := 2020 } "1" seedBook1
    rfl (by with_unfolding_all rfl) (by decide)
  exact ⟨h1.1, h1.2.1, h2.2.2.1, h2.2.2.2⟩

/-- C8: a create whose draft has a title or author that is blank after
trimming white space is rejected with the Invalid error (400, "title and
author are required") before the store is touched: the returned state is
the input state, so no entry is added and the counter is unchanged —
whatever the lifecycle token says. -/
theorem create_blank_required_field_rejected (s : RepoState) (ct m : String)
    (p : BookPayload) (ce : Option CtxErr)
    (hct : goHasPre ct "application/json" = true)
    (hbad : goTrimSpace p.title = "" ∨ goTrimSpace p.author = "") :
    createBook { method := m, contentType := ct, body := some p, ctxErr := ce } s
      = (writeError 400 "title and author are required", s) := by
  have hr : readBookPayload { method := m, contentType := ct, body := some p, ctxErr := ce }
      = Except.error PayloadError.invalidPayload := by
    rcases hbad with h | h <;> simp [readBookPayload, hct, h]
  rw [createBook.eq_def, hr]
  exact rfl

/-- Witness for C8: a draft with an empty title and author "X". -/
theorem create_blank_required_field_rejected_witness :
    createBook
        { method := "POST", contentType := "application/json",
          body := some { title := "", author := "X", isbn := "", publishedYear := 0 },
          ctxErr := none } ⟨[], 1⟩
      = (writeError 400 "title and author are required", ⟨[], 1⟩) :=
  create_blank_required_field_rejected ⟨[], 1⟩ "application/json" "POST"
    { title := "", author := "X", isbn := "", publishedYear := 0 } none
    (by decide) (Or.inl (by decide))

/-- C9: for a preflight `OPTIONS` request the CORS decorator answers by
itself with `204 No Content`, an empty body and the CORS headers set, and
its answer does not depend on the downstream handler (nothing downstream
runs); for every other method it sets the same CORS headers and invokes
the downstream handler. -/
theorem cors_preflight_short_circuit
    (next nx2 : Request → List (String × String) → Response)
    (req : Request) (hdrs : List (String × String)) :
    (req.method = "OPTIONS" →
      corsMiddleware next req hdrs
        = { status := 204, headers := hdrs ++ corsHeaders, body := RespBody.empty } ∧
      corsMiddleware next req hdrs = corsMiddleware nx2 req hdrs) ∧
    (¬ req.method = "OPTIONS" →
      corsMiddleware next req hdrs = next req (hdrs ++ corsHeaders)) := by
  constructor
  · intro h
    constructor <;> simp [corsMiddleware, h]
  · intro h
    simp [corsMiddleware, h]

/-- Witness for C9: a preflight request is answered identically under two
different downstream handlers, and a `GET` request reaches its handler. -/
theorem cors_preflight_short_circuit_witness :
    (corsMiddleware (fun _ _ => writeError 404 "a")
        { method := "OPTIONS", contentType := "", body := none, ctxErr := none } []
      = { status := 204, headers := [] ++ corsHeaders, body := RespBody.empty } ∧
    corsMiddleware (fun _ _ => writeError 404 "a")
        { method := "OPTIONS", contentType := "", body := none, ctxErr := none } []
      = corsMiddleware (fun _ _ => writeError 500 "b")
        { method := "OPTIONS", contentType := "", body := none, ctxErr := none } []) ∧
    corsMiddleware (fun _ _ => writeError 404 "a")
        { method := "GET", contentType := "", body := none, ctxErr := none } []
      = (fun (_ : Request) (_ : List (String × String)) => writeError 404 "a")
        { method := "GET", contentType := "", body := none, ctxErr := none }
        ([] ++ corsHeaders) :=
  ⟨(cors_preflight_short_circuit (fun _ _ => writeError 404 "a")
      (fun _ _ => writeError 500 "b")
      { method := "OPTIONS", contentType := "", body := none, ctxErr := none } []).1 rfl,
   (cors_preflight_short_circuit (fun _ _ => writeError 404 "a")
      (fun _ _ => writeError 500 "b")
      { method := "GET", contentType := "", body := none, ctxErr := none } []).2 (by decide)⟩

/-- C10: `contextDone` writes nothing and reports false exactly when the
context error is nil, and otherwise writes exactly one error response:
504 Gateway Timeout for `DeadlineExceeded`, 408 Request Timeout for
`Canceled`, and 408 for every other non-nil context error (the default
branch of the switch). -/
theorem contextDone_status_mapping :
    contextDone none = none ∧
    contextDone (some CtxErr.deadlineExceeded) = some (writeError 504 "request timed out") ∧
    contextDone (some CtxErr.canceled) = some (writeError 408 "request canceled") ∧
    contextDone (some CtxErr.other) = some (writeError 408 "request canceled") :=
  ⟨rfl, rfl, rfl, rfl⟩

end GoRestApi
